import Mathlib

/-!
Verification of the build-orchestration core of packer-plugin-meda.

The Go sources under plugin/ are shallowly embedded: each multistep step
(`steps.go`), the builder's run/finish logic (`builder.go`) and the artifact
(`artifact.go`) become pure Lean functions.  External subprocess/HTTP results
are supplied by an `Oracle`; the calls a step issues to the Meda backend are
returned explicitly so that theorems can count them.
-/

namespace Meda

/-! ## Go string primitives

The step code uses `strings.Split`, `strings.TrimSpace`, `strings.Count`,
`strings.Contains` and `strconv.Atoi`.  They are modelled here on `List Char`
(`String.data`); the inputs reaching them in this program are ASCII. -/

/-- Characters removed by Go's `strings.TrimSpace` (the ASCII subset of
Unicode white space: space, tab, newline, vertical tab, form feed, carriage
return). -/
def isSpaceChar (c : Char) : Bool :=
  c = ' ' || c = '\t' || c = '\n' || c = '\x0B' || c = '\x0C' || c = '\r'

/-- Go `strings.TrimSpace`: drop white space from both ends. -/
def trimSpace (l : List Char) : List Char :=
  ((l.dropWhile isSpaceChar).reverse.dropWhile isSpaceChar).reverse

/-- Go `strings.Split(s, sep)` for a one-character separator: the list of
(possibly empty) chunks between occurrences of `sep`. -/
def splitOnChar (sep : Char) : List Char → List (List Char)
  | [] => [[]]
  | c :: cs =>
    if c = sep then [] :: splitOnChar sep cs
    else
      match splitOnChar sep cs with
      | [] => [[c]]
      | p :: ps => (c :: p) :: ps

/-- Go `strings.Count(s, sep)` for a one-character separator. -/
def countChar (c : Char) : List Char → Nat
  | [] => 0
  | a :: t => (if a = c then 1 else 0) + countChar c t

/-- Go `strings.Contains(hay, needle)`: `needle` occurs as a contiguous
substring of `hay`. -/
def containsSeq (hay needle : List Char) : Bool :=
  needle.isPrefixOf hay ||
    match hay with
    | [] => false
    | _ :: t => containsSeq t needle

/-- `strings.Contains` on `String`s. -/
def strContains (hay needle : String) : Bool :=
  containsSeq hay.data needle.data

/-- Numeric value of a digit string (most significant digit first). -/
def digitsVal (l : List Char) : Nat :=
  l.foldl (fun a c => 10 * a + (c.toNat - 48)) 0

/-- Magnitude check for `strconv.Atoi` of a non-negative literal on a 64-bit
platform: non-empty, all decimal digits, value within `int64`. -/
def decMag (l : List Char) : Bool :=
  !l.isEmpty && l.all Char.isDigit && decide (digitsVal l ≤ 2 ^ 63 - 1)

/-- Magnitude check for `strconv.Atoi` after a leading minus sign. -/
def decMagNeg (l : List Char) : Bool :=
  !l.isEmpty && l.all Char.isDigit && decide (digitsVal l ≤ 2 ^ 63)

/-- Success predicate of Go `strconv.Atoi` (base-10 `ParseInt` into `int` on a
64-bit platform): an optional sign followed by at least one decimal digit,
with the value inside the `int64` range. -/
def atoiOk : List Char → Bool
  | [] => false
  | c :: rest =>
    if c = '+' then decMag rest
    else if c = '-' then decMagNeg rest
    else decMag (c :: rest)

/-! ## The address-validation predicate of stepWaitForVM (steps.go:281-300)

For each line of the `ip` command's output, after `TrimSpace`, the code
accepts the line when it has exactly three dots, no space, splits into four
parts, and every part passes `strconv.Atoi`. -/

/-- The per-line acceptance test of `stepWaitForVM.Run` (steps.go:284-299),
applied to an already-trimmed line. -/
def ipLineValid (l : List Char) : Bool :=
  countChar '.' l == 3 && !containsSeq l [' '] &&
    (let parts := splitOnChar '.' l
     parts.length == 4 && parts.all atoiOk)

/-- The specification's wording of the same predicate: the line is an entire
token of exactly four dot-separated segments, each parseable as a decimal
integer. -/
def specFourSegments (l : List Char) : Bool :=
  (splitOnChar '.' l).length == 4 && (splitOnChar '.' l).all atoiOk

/-- First trimmed line of the output accepted by `ipLineValid`; `[]` (Go's
zero-value string) when no line is accepted (steps.go:280-301). -/
def firstValidIPLine : List (List Char) → List Char
  | [] => []
  | l :: rest =>
    let t := trimSpace l
    if ipLineValid t then t else firstValidIPLine rest

/-- IP extraction of `stepWaitForVM.Run` from one poll's combined output:
split on newlines, take the first valid trimmed line, then keep it only if it
is neither `""` nor `"null"` (steps.go:277-303). -/
def extractIP (output : String) : Option String :=
  let ip := firstValidIPLine (splitOnChar '\n' output.data)
  if ip ≠ [] ∧ ip ≠ "null".data then some (String.mk ip) else none

/-! ### Helper lemmas about the string primitives -/

theorem splitOnChar_length (sep : Char) (l : List Char) :
    (splitOnChar sep l).length = countChar sep l + 1 := by
  induction l with
  | nil => rfl
  | cons c cs ih =>
    by_cases hc : c = sep
    · subst hc
      simp only [splitOnChar, countChar, if_true, List.length_cons, ih,
        if_pos rfl]
      omega
    · simp only [splitOnChar, countChar, hc, if_neg, if_false]
      cases h : splitOnChar sep cs with
      | nil => rw [h] at ih; simp at ih
      | cons p ps =>
        rw [h] at ih
        simp only [List.length_cons] at ih ⊢
        omega

theorem mem_splitOnChar {sep c : Char} :
    ∀ {l : List Char}, c ∈ l → c ≠ sep →
      ∃ p, p ∈ splitOnChar sep l ∧ c ∈ p := by
  intro l
  induction l with
  | nil => intro h; exact absurd h (List.not_mem_nil c)
  | cons a cs ih =>
    intro hmem hne
    rcases List.mem_cons.mp hmem with rfl | htail
    · -- c is the head, so a = c ≠ sep and the head lands in the first chunk
      simp only [splitOnChar, if_neg hne]
      cases h : splitOnChar sep cs with
      | nil => exact ⟨[c], by simp⟩
      | cons p ps => exact ⟨c :: p, by simp⟩
    · rcases ih htail hne with ⟨p, hp, hcp⟩
      by_cases ha : a = sep
      · exact ⟨p, by simp [splitOnChar, ha, hp], hcp⟩
      · simp only [splitOnChar, if_neg ha]
        cases h : splitOnChar sep cs with
        | nil => rw [h] at hp; exact absurd hp (List.not_mem_nil p)
        | cons p0 ps =>
          rw [h] at hp
          rcases List.mem_cons.mp hp with rfl | hps
          · exact ⟨a :: p, by simp, List.mem_cons_of_mem a hcp⟩
          · exact ⟨p, by simp [hps], hcp⟩

theorem decMag_all_digits {p : List Char} (h : decMag p = true) :
    p.all Char.isDigit = true := by
  simp only [decMag, Bool.and_eq_true] at h
  exact h.1.2

theorem decMagNeg_all_digits {p : List Char} (h : decMagNeg p = true) :
    p.all Char.isDigit = true := by
  simp only [decMagNeg, Bool.and_eq_true] at h
  exact h.1.2

theorem atoiOk_no_space {p : List Char} (h : atoiOk p = true) : ' ' ∉ p := by
  intro hmem
  cases p with
  | nil => exact absurd hmem (List.not_mem_nil _)
  | cons c rest =>
    by_cases hc : c = '+'
    · simp only [atoiOk, hc, if_pos rfl] at h
      have hall := decMag_all_digits h
      rcases List.mem_cons.mp hmem with heq | hrest
      · rw [hc] at heq; exact absurd heq (by decide)
      · have := (List.all_eq_true.mp hall) _ hrest
        exact absurd this (by decide)
    · by_cases hm : c = '-'
      · simp only [atoiOk, hc, hm, if_neg, if_pos rfl, if_false] at h
        have hall := decMagNeg_all_digits h
        rcases List.mem_cons.mp hmem with heq | hrest
        · rw [hm] at heq; exact absurd heq (by decide)
        · have := (List.all_eq_true.mp hall) _ hrest
          exact absurd this (by decide)
      · simp only [atoiOk, hc, hm, if_neg, if_false] at h
        have hall := decMag_all_digits h
        have := (List.all_eq_true.mp hall) _ hmem
        exact absurd this (by decide)

theorem containsSeq_singleton (c : Char) :
    ∀ l : List Char, containsSeq l [c] = true ↔ c ∈ l := by
  intro l
  induction l with
  | nil => simp [containsSeq, List.isPrefixOf]
  | cons a t ih =>
    simp only [containsSeq, List.isPrefixOf, Bool.or_eq_true, Bool.and_eq_true]
    constructor
    · rintro (⟨h1, _⟩ | h2)
      · exact List.mem_cons.mpr (Or.inl (beq_iff_eq.mp h1))
      · exact List.mem_cons.mpr (Or.inr (ih.mp h2))
    · intro hmem
      rcases List.mem_cons.mp hmem with rfl | ht
      · exact Or.inl ⟨beq_self_eq_true c, by simp [List.isPrefixOf]⟩
      · exact Or.inr (ih.mpr ht)

/-- The code's line test agrees with the specification's: a line passes the
check of steps.go:284-299 exactly when it splits into four dot-separated
segments that each satisfy `strconv.Atoi`. -/
theorem ipLineValid_eq_spec (l : List Char) :
    ipLineValid l = specFourSegments l := by
  cases hv : ipLineValid l <;> cases hs : specFourSegments l <;> try rfl
  · exfalso
    simp only [specFourSegments, Bool.and_eq_true, beq_iff_eq] at hs
    obtain ⟨hlen, hall⟩ := hs
    have hcount : countChar '.' l = 3 := by
      have := splitOnChar_length '.' l
      omega
    have hnospace : containsSeq l [' '] = false := by
      cases hsp : containsSeq l [' ']
      · rfl
      · exfalso
        have hmem : ' ' ∈ l := (containsSeq_singleton ' ' l).mp hsp
        rcases @mem_splitOnChar '.' ' ' l hmem (by decide) with ⟨p, hp, hcp⟩
        have := (List.all_eq_true.mp hall) _ hp
        exact atoiOk_no_space this hcp
    have : ipLineValid l = true := by
      simp [ipLineValid, hcount, hnospace, hlen, hall]
    rw [hv] at this
    exact Bool.false_ne_true this
  · exfalso
    simp only [ipLineValid, Bool.and_eq_true, beq_iff_eq] at hv
    have : specFourSegments l = true := by
      simp [specFourSegments, hv.2.1, hv.2.2]
    rw [hs] at this
    exact Bool.false_ne_true this

/-! ## Data model

`Config` carries the fields of `config.go` that the steps read.  `BuildState`
is the multistep state bag restricted to its string-valued entries (`vm_name`,
`vm_ip`, `instance_ip`, `image_name`, `pushed_image`, `error`, and the
runner's `halted`/`cancelled` markers); the non-data entries (`config`, `ui`,
`hook`) are passed as explicit parameters instead.  Error values are modelled
by their message strings. -/

structure Config where
  medaBinary : String
  medaHost : String
  medaPort : Nat
  useAPI : Bool
  vmName : String
  baseImage : String
  memory : String
  cpus : Nat
  diskSize : String
  userDataFile : String
  outputImageName : String
  outputTag : String
  registry : String
  organization : String
  pushToRegistry : Bool
  dryRun : Bool

/-- The multistep state bag (`multistep.BasicStateBag`): `Put` prepends,
`Get`/`GetOk` find the most recent entry. -/
def BuildState := List (String × String)

def statePut (s : BuildState) (k v : String) : BuildState := (k, v) :: s

def stateGet (s : BuildState) (k : String) : Option String :=
  (List.find? (fun p => p.1 == k) s).map (fun p => p.2)

/-- A step's return value (`multistep.StepAction`). -/
inductive StepAction where
  | cont
  | halt
deriving DecidableEq

/-- One operation issued against the Meda backend.  Each constructor covers
both transports: the CLI invocation and the corresponding REST request of the
same step (steps.go builds one or the other from the same parameters). -/
inductive MedaCall where
  | listImages
  | pullImage (image : String)
  | createVM (args : List String)
  | startVM (vm : String)
  | getIP (vm : String)
  | stopVM (vm : String)
  | createImage (name tag fromVM : String)
  | pushImage (args : List String)
  | deleteVM (vm : String)
deriving DecidableEq

def isDeleteVMCall : MedaCall → Bool
  | .deleteVM _ => true
  | _ => false

def isPullImageCall : MedaCall → Bool
  | .pullImage _ => true
  | _ => false

def isPushImageCall : MedaCall → Bool
  | .pushImage _ => true
  | _ => false

def isCreateVMCall : MedaCall → Bool
  | .createVM _ => true
  | _ => false

def isStartVMCall : MedaCall → Bool
  | .startVM _ => true
  | _ => false

def isCreateImageCall : MedaCall → Bool
  | .createImage _ _ _ => true
  | _ => false

/-- Result of a subprocess run through `CombinedOutput` (or the equivalent
`curl` call): `exitOk` is `err == nil`, `errMsg` is `err.Error()` when the
run failed, `output` is the combined output text. -/
structure CmdResult where
  exitOk : Bool
  errMsg : String
  output : String
deriving DecidableEq

/-- Result of a subprocess run through the streamed-pipe pattern of the pull
and push steps: pipe creation, `Start()`, the `Wait()` outcome, and the
standard-error lines captured by the reader goroutine. -/
structure StreamOracle where
  pipesOk : Bool
  startOk : Bool
  startErrMsg : String
  exitErr : Option String
  stderrLines : List String

/-- The captured stderr text: the reader goroutine appends each scanned line
plus a newline (steps.go:97-104). -/
def streamStderr (lines : List String) : String :=
  lines.foldl (fun a l => a ++ l ++ "\n") ""

def trimString (s : String) : String := String.mk (trimSpace s.data)

/-- Environment of one build: the outcome of every external command a step
may issue.  `polls` gives the `ip`-command result of the n-th poll;
`timeoutFirst` resolves the race of the Go `select` when the 5-minute timer
and a ticker tick are ready simultaneously (the Go language specification
makes that choice a uniform pseudo-random one); `externalOk` is the outcome
of the SDK-provided key-generation/connect/provision steps. -/
structure Oracle where
  imagesCheck : CmdResult
  pullO : StreamOracle
  createVMR : CmdResult
  startVMR : CmdResult
  polls : Nat → CmdResult
  timeoutFirst : Bool
  stopVMR : CmdResult
  createImageR : CmdResult
  pushO : StreamOracle
  deleteVMR : CmdResult
  externalOk : Bool

/-- What one step produces: its action, the updated state, the backend calls
it issued, and the warnings it logged (the non-fatal failures of stop and
cleanup). -/
structure StepResult where
  action : StepAction
  state : BuildState
  calls : List MedaCall
  warnings : List String

/-! ## The steps (plugin/steps.go) -/

/-- Error message built by the pull step on failure (steps.go:115-121). -/
def pullFailMsg (baseImage : String) (exitErr : Option String)
    (stderrContent : String) : String :=
  let m := "failed to pull base image '" ++ baseImage ++ "'"
  let m := match exitErr with
    | some e => m ++ ": " ++ e
    | none => m
  if stderrContent = "" then m else m ++ " - " ++ trimString stderrContent

/-- `stepPullImage.Run` (steps.go:21-134): list the backend's images; when
the configured base image does not appear in the output, pull it with the
streamed-pipe pattern and fail on a bad exit or an authorization-denial
marker in the captured stderr. -/
def stepPullImage (c : Config) (o : Oracle) (s : BuildState) : StepResult :=
  let imageExists := o.imagesCheck.exitOk &&
    strContains o.imagesCheck.output c.baseImage
  if imageExists then
    ⟨.cont, s, [.listImages], []⟩
  else if !o.pullO.pipesOk then
    ⟨.halt, s, [.listImages], []⟩
  else if !o.pullO.startOk then
    ⟨.halt,
      statePut s "error" ("failed to start pull command: " ++ o.pullO.startErrMsg),
      [.listImages], []⟩
  else
    let stderrContent := streamStderr o.pullO.stderrLines
    if o.pullO.exitErr.isSome || strContains stderrContent "unauthorized" ||
        strContains stderrContent "denied" then
      ⟨.halt,
        statePut s "error" (pullFailMsg c.baseImage o.pullO.exitErr stderrContent),
        [.listImages, .pullImage c.baseImage], []⟩
    else
      ⟨.cont, s, [.listImages, .pullImage c.baseImage], []⟩

/-- Fuel-based decimal rendering of a natural number, most significant digit
first: the model of Go's `%d` formatting (and of Lean's own decimal `toString`).
The fuel `n + 1` always suffices because the argument shrinks by a factor of
ten per step. -/
def decReprAux : Nat → Nat → List Char
  | 0, _ => []
  | fuel + 1, n =>
    if n < 10 then [Nat.digitChar n]
    else decReprAux fuel (n / 10) ++ [Nat.digitChar (n % 10)]

def decRepr (n : Nat) : List Char := decReprAux (n + 1) n

def decReprS (n : Nat) : String := String.mk (decRepr n)

/-- CLI argument list of the VM-creation command (steps.go:166-174). -/
def createVMArgs (c : Config) (vm : String) : List String :=
  ["run", c.baseImage, "--name", vm, "--memory", c.memory,
   "--cpus", decReprS c.cpus, "--disk", c.diskSize, "--no-start"] ++
    (if c.userDataFile ≠ "" then ["--user-data", c.userDataFile] else [])

/-- `stepCreateVM.Run` (steps.go:143-196). -/
def stepCreateVM (c : Config) (o : Oracle) (s : BuildState) : StepResult :=
  let vm := (stateGet s "vm_name").getD ""
  if o.createVMR.exitOk then
    ⟨.cont, s, [.createVM (createVMArgs c vm)], []⟩
  else
    ⟨.halt,
      statePut s "error"
        ("failed to create VM: " ++ o.createVMR.errMsg ++ " - " ++ o.createVMR.output),
      [.createVM (createVMArgs c vm)], []⟩

/-- `stepStartVM.Run` (steps.go:205-235). -/
def stepStartVM (c : Config) (o : Oracle) (s : BuildState) : StepResult :=
  let vm := (stateGet s "vm_name").getD ""
  if o.startVMR.exitOk then
    ⟨.cont, s, [.startVM vm], []⟩
  else
    ⟨.halt,
      statePut s "error"
        ("failed to start VM: " ++ o.startVMR.errMsg ++ " - " ++ o.startVMR.output),
      [.startVM vm], []⟩

/-- One poll of the wait loop (steps.go:275-311): the `ip` command's output
is inspected only when the command succeeded and produced output; `none`
means not-ready. -/
def pollIP (r : CmdResult) : Option String :=
  if r.exitOk && r.output.length > 0 then extractIP r.output else none

/-- The poll loop of `stepWaitForVM.Run`, with the number of remaining polls
as fuel.  The result pairs the found address (or `none` on timeout) with the
number of polls performed. -/
def waitLoop (polls : Nat → CmdResult) : Nat → Nat → Option String × Nat
  | 0, _ => (none, 0)
  | fuel + 1, i =>
    match pollIP (polls i) with
    | some ip => (some ip, 1)
    | none =>
      let r := waitLoop polls fuel (i + 1)
      (r.1, r.2 + 1)

/-- Number of polls the loop of steps.go:250-261 performs before the timeout
channel is taken, assuming each poll completes within its 10-second slot.
The ticker delivers at `interval, 2*interval, ...` and `time.After` fires at
`deadline`, so the ticks strictly before the deadline number
`(deadline - 1) / interval`; when the deadline is itself a tick time, both
channels become ready together and the Go `select` picks pseudo-randomly —
`timeoutFirst` records which side wins that race. -/
def pollBudget (intervalSec deadlineSec : Nat) (timeoutFirst : Bool) : Nat :=
  let strict := (deadlineSec - 1) / intervalSec
  if deadlineSec % intervalSec == 0 && deadlineSec != 0 && !timeoutFirst then
    strict + 1
  else strict

/-- `stepWaitForVM.Run` (steps.go:242-315): poll every 10 s against a
5-minute timeout; on a valid address, record `vm_ip` and `instance_ip` (the
step also sets the communicator's SSH host to it); on timeout, record the
timeout error and halt. -/
def stepWaitForVM (c : Config) (o : Oracle) (s : BuildState) : StepResult :=
  let vm := (stateGet s "vm_name").getD ""
  let budget := pollBudget 10 300 o.timeoutFirst
  match waitLoop o.polls budget 0 with
  | (some ip, n) =>
    ⟨.cont, statePut (statePut s "vm_ip" ip) "instance_ip" ip,
      List.replicate n (.getIP vm), []⟩
  | (none, n) =>
    ⟨.halt, statePut s "error" "timeout waiting for VM to be ready",
      List.replicate n (.getIP vm), []⟩

/-- `stepStopVM.Run` (steps.go:322-351): a stop failure is only logged as a
warning; the step always continues and records no error. -/
def stepStopVM (c : Config) (o : Oracle) (s : BuildState) : StepResult :=
  let vm := (stateGet s "vm_name").getD ""
  if o.stopVMR.exitOk then
    ⟨.cont, s, [.stopVM vm], []⟩
  else
    ⟨.cont, s, [.stopVM vm],
      ["Warning: failed to stop VM: " ++ o.stopVMR.errMsg ++ " - " ++ o.stopVMR.output]⟩

/-- `stepCreateImage.Run` (steps.go:358-400): snapshot the VM into
`output_image_name:output_tag` and record `image_name` on success. -/
def stepCreateImage (c : Config) (o : Oracle) (s : BuildState) : StepResult :=
  let vm := (stateGet s "vm_name").getD ""
  let imageName := c.outputImageName ++ ":" ++ c.outputTag
  if o.createImageR.exitOk then
    ⟨.cont, statePut s "image_name" imageName,
      [.createImage c.outputImageName c.outputTag vm], []⟩
  else
    ⟨.halt,
      statePut s "error"
        ("failed to create image: " ++ o.createImageR.errMsg ++ " - " ++
          o.createImageR.output),
      [.createImage c.outputImageName c.outputTag vm], []⟩

/-- The fully qualified push target (steps.go:430-435): the organization
segment is present exactly when `organization` is non-empty. -/
def targetImageName (c : Config) : String :=
  if c.organization ≠ "" then
    c.registry ++ "/" ++ c.organization ++ "/" ++ c.outputImageName ++ ":" ++ c.outputTag
  else
    c.registry ++ "/" ++ c.outputImageName ++ ":" ++ c.outputTag

/-- CLI argument list of the push command (steps.go:454-462). -/
def pushArgs (c : Config) (target : String) : List String :=
  ["push", c.outputImageName, target] ++
    (if c.registry ≠ "" ∧ c.registry ≠ "ghcr.io" then ["--registry", c.registry]
     else []) ++
    (if c.dryRun then ["--dry-run"] else [])

/-- The precondition error raised when pushing to GHCR without a token
(steps.go:421). -/
def ghcrTokenMsg : String :=
  "GITHUB_TOKEN environment variable is required for pushing to GHCR. Please set it with: export GITHUB_TOKEN=your_token"

/-- Error message built by the push step on failure (steps.go:521-527). -/
def pushFailMsg (exitErr : Option String) (stderrContent : String) : String :=
  let m := "failed to push image"
  let m := match exitErr with
    | some e => m ++ ": " ++ e
    | none => m
  if stderrContent = "" then m else m ++ " - " ++ trimString stderrContent

/-- `stepPushImage.Run` (steps.go:407-537).  `githubToken` is
`os.Getenv("GITHUB_TOKEN")`, which returns `""` when the variable is unset.
Skips entirely when pushing is disabled; halts before building any command
when the registry matches GHCR and the token is empty; otherwise runs the
push with the streamed-pipe pattern and fails on a bad exit or any of the
three authorization-denial markers in the captured stderr. -/
def stepPushImage (c : Config) (githubToken : String) (o : Oracle)
    (s : BuildState) : StepResult :=
  if !c.pushToRegistry then
    ⟨.cont, s, [], []⟩
  else if strContains c.registry "ghcr.io" && githubToken == "" then
    ⟨.halt, statePut s "error" ghcrTokenMsg, [], []⟩
  else
    let target := targetImageName c
    if !o.pushO.pipesOk then
      ⟨.halt, s, [], []⟩
    else if !o.pushO.startOk then
      ⟨.halt,
        statePut s "error" ("failed to start push command: " ++ o.pushO.startErrMsg),
        [], []⟩
    else
      let stderrContent := streamStderr o.pushO.stderrLines
      if o.pushO.exitErr.isSome || strContains stderrContent "unauthorized" ||
          strContains stderrContent "denied" ||
          strContains stderrContent "authentication required" then
        ⟨.halt, statePut s "error" (pushFailMsg o.pushO.exitErr stderrContent),
          [.pushImage (pushArgs c target)], []⟩
      else
        ⟨.cont, statePut s "pushed_image" target,
          [.pushImage (pushArgs c target)], []⟩

/-- `stepCleanupVM.Run` (steps.go:544-573): delete the VM; a failure is only
logged as a warning and the step always continues. -/
def stepCleanupVM (c : Config) (o : Oracle) (s : BuildState) : StepResult :=
  let vm := (stateGet s "vm_name").getD ""
  if o.deleteVMR.exitOk then
    ⟨.cont, s, [.deleteVM vm], []⟩
  else
    ⟨.cont, s, [.deleteVM vm],
      ["Warning: failed to delete VM: " ++ o.deleteVMR.errMsg ++ " - " ++
        o.deleteVMR.output]⟩

/-- The SDK-provided steps between WaitForReady and StopVM (conditional
`StepSSHKeyGen`, `StepConnect`, `StepProvision` in builder.go): external
collaborators of the core; they issue no Meda calls and their joint outcome
is supplied by the oracle. -/
def externalStep (o : Oracle) (s : BuildState) : StepResult :=
  if o.externalOk then ⟨.cont, s, [], []⟩ else ⟨.halt, s, [], []⟩

/-! ## The orchestrator (builder.go and multistep.BasicRunner)

`multistep`'s runner executes the steps' `Run` methods in list order, stops
at the first one returning `ActionHalt` (recording the `halted` marker), and
then invokes the `Cleanup` hooks of the started steps in reverse order.
Every step of steps.go has an empty `Cleanup` body — including
`stepCleanupVM`, whose deletion logic lives in its `Run` — so the cleanup
phase performs no backend call and no state change and is elided here. -/

def buildStepList (c : Config) (githubToken : String) (o : Oracle) :
    List (BuildState → StepResult) :=
  [stepPullImage c o, stepCreateVM c o, stepStartVM c o, stepWaitForVM c o,
   externalStep o, stepStopVM c o, stepCreateImage c o,
   stepPushImage c githubToken o, stepCleanupVM c o]

def runSteps : List (BuildState → StepResult) → BuildState →
    BuildState × List MedaCall
  | [], s => (s, [])
  | st :: rest, s =>
    let r := st s
    match r.action with
    | .cont =>
      let q := runSteps rest r.state
      (q.1, r.calls ++ q.2)
    | .halt => (statePut r.state "halted" "true", r.calls)

/-- The VM identifier derivation of `Builder.Run` (builder.go:320):
`fmt.Sprintf("packer-%s-%d", b.config.VMName, time.Now().Unix())`. -/
def vmNameOf (c : Config) (unixSeconds : Nat) : String :=
  "packer-" ++ c.vmName ++ "-" ++ decReprS unixSeconds

/-- The build's result object (artifact.go): the produced image name and the
pushed coordinate (empty when no push happened). -/
structure Artifact where
  imageName : String
  pushedImage : String
deriving DecidableEq

/-- `Artifact.String` (artifact.go:60-65). -/
def artifactString (a : Artifact) : String :=
  if a.pushedImage ≠ "" then
    "Meda image: " ++ a.imageName ++ " (pushed to " ++ a.pushedImage ++ ")"
  else
    "Meda image: " ++ a.imageName

/-- The terminal reporting of `Builder.Run` (builder.go:367-400): a recorded
error wins over everything; then cancellation, then halt; an artifact is
built only when `image_name` exists in the state. -/
def builderFinish (s : BuildState) : Except String Artifact :=
  match stateGet s "error" with
  | some e => .error e
  | none =>
    if (stateGet s "cancelled").isSome then .error "build was cancelled"
    else if (stateGet s "halted").isSome then .error "build was halted"
    else
      match stateGet s "image_name" with
      | none => .error "failed to get image name from state"
      | some img => .ok ⟨img, (stateGet s "pushed_image").getD ""⟩

/-- `Builder.Run` (builder.go:312-401): seed the state with the
timestamp-qualified VM name, run the step list, and report. -/
def builderRun (c : Config) (githubToken : String) (o : Oracle)
    (nowUnix : Nat) : Except String Artifact × List MedaCall :=
  let s0 : BuildState := [("vm_name", vmNameOf c nowUnix)]
  let r := runSteps (buildStepList c githubToken o) s0
  (builderFinish r.1, r.2)

/-! ## State-bag lemmas -/

theorem stateGet_put_same (s : BuildState) (k v : String) :
    stateGet (statePut s k v) k = some v := by
  simp [stateGet, statePut, List.find?]

theorem stateGet_put_ne (s : BuildState) (k k' v : String) (h : k ≠ k') :
    stateGet (statePut s k v) k' = stateGet s k' := by
  have hb : (k == k') = false := beq_eq_false_iff_ne.mpr h
  simp [stateGet, statePut, List.find?, hb]

/-! ## Demonstration inputs used by witnesses and counterexamples -/

def demoConfig : Config :=
  { medaBinary := "meda", medaHost := "127.0.0.1", medaPort := 7777,
    useAPI := false, vmName := "web", baseImage := "ubuntu:latest",
    memory := "1G", cpus := 2, diskSize := "10G", userDataFile := "",
    outputImageName := "img", outputTag := "latest", registry := "ghcr.io",
    organization := "", pushToRegistry := true, dryRun := false }

def demoOkCmd : CmdResult := ⟨true, "", "done"⟩

def demoOkStream : StreamOracle := ⟨true, true, "", none, []⟩

/-- A benign environment: the base image is present, every command succeeds,
the first poll returns a valid address. -/
def demoOracle : Oracle :=
  { imagesCheck := ⟨true, "", "ubuntu:latest\nubuntu-base:latest\n"⟩,
    pullO := demoOkStream,
    createVMR := demoOkCmd, startVMR := demoOkCmd,
    polls := fun _ => ⟨true, "", "192.168.1.10\n"⟩,
    timeoutFirst := true,
    stopVMR := demoOkCmd, createImageR := demoOkCmd,
    pushO := demoOkStream,
    deleteVMR := demoOkCmd, externalOk := true }

/-! ## Claim theorems -/

/-- C10: after the runner finishes, a recorded error is returned verbatim and
wins over the cancellation and halt reports; with no error, cancellation then
halt are reported distinctly; and an artifact is built only when `image_name`
is present in the state — otherwise `Builder.Run` errors instead of returning
an artifact with an empty image name. -/
theorem builder_terminal_reporting :
    (∀ (s : BuildState) (e : String), stateGet s "error" = some e →
      builderFinish s = .error e) ∧
    (∀ s : BuildState, stateGet s "error" = none →
      (stateGet s "cancelled").isSome = true →
      builderFinish s = .error "build was cancelled") ∧
    (∀ s : BuildState, stateGet s "error" = none →
      stateGet s "cancelled" = none →
      (stateGet s "halted").isSome = true →
      builderFinish s = .error "build was halted") ∧
    (∀ s : BuildState, stateGet s "error" = none →
      stateGet s "cancelled" = none → stateGet s "halted" = none →
      stateGet s "image_name" = none →
      builderFinish s = .error "failed to get image name from state") ∧
    (∀ (s : BuildState) (img : String), stateGet s "error" = none →
      stateGet s "cancelled" = none → stateGet s "halted" = none →
      stateGet s "image_name" = some img →
      builderFinish s = .ok ⟨img, (stateGet s "pushed_image").getD ""⟩) := by
  refine ⟨?_, ?_, ?_, ?_, ?_⟩
  · intro s e he
    unfold builderFinish
    rw [he]
  · intro s he hc
    unfold builderFinish
    rw [he]
    simp [hc]
  · intro s he hc hh
    unfold builderFinish
    rw [he, hc]
    simp [hh]
  · intro s he hc hh hi
    unfold builderFinish
    rw [he, hc, hh, hi]
    rfl
  · intro s img he hc hh hi
    unfold builderFinish
    rw [he, hc, hh, hi]
    rfl

theorem builder_terminal_reporting_witness :
    builderFinish [("error", "boom"), ("halted", "true")] = .error "boom" :=
  builder_terminal_reporting.1 [("error", "boom"), ("halted", "true")] "boom" rfl

/-- C4: with pushing enabled, a registry matching the GHCR host, and an empty
(unset) `GITHUB_TOKEN`, the push step halts with the precondition error
recorded in the state and issues no backend call at all — the check precedes
any command construction. -/
theorem push_halts_without_ghcr_token (c : Config) (o : Oracle)
    (s : BuildState) (hp : c.pushToRegistry = true)
    (hg : strContains c.registry "ghcr.io" = true) :
    stepPushImage c "" o s = ⟨.halt, statePut s "error" ghcrTokenMsg, [], []⟩ ∧
    stateGet (stepPushImage c "" o s).state "error" = some ghcrTokenMsg ∧
    (stepPushImage c "" o s).calls = [] := by
  have he : stepPushImage c "" o s =
      ⟨.halt, statePut s "error" ghcrTokenMsg, [], []⟩ := by
    unfold stepPushImage
    rw [hp, hg]
    rfl
  refine ⟨he, ?_, ?_⟩
  · rw [he]
    exact stateGet_put_same s "error" ghcrTokenMsg
  · rw [he]

theorem push_halts_without_ghcr_token_witness :
    stepPushImage demoConfig "" demoOracle [] =
      ⟨.halt, statePut [] "error" ghcrTokenMsg, [], []⟩ :=
  (push_halts_without_ghcr_token demoConfig demoOracle [] rfl (by decide)).1

/-- C5: with `push_to_registry=false`, the push step returns continue, leaves
the state untouched (no error, no `pushed_image` entry) and issues zero
backend calls. -/
theorem push_skipped_when_disabled (c : Config) (t : String) (o : Oracle)
    (s : BuildState) (h : c.pushToRegistry = false) :
    stepPushImage c t o s = ⟨.cont, s, [], []⟩ ∧
    stateGet (stepPushImage c t o s).state "error" = stateGet s "error" ∧
    stateGet (stepPushImage c t o s).state "pushed_image" =
      stateGet s "pushed_image" ∧
    (stepPushImage c t o s).calls.countP (fun k => isPushImageCall k) = 0 := by
  have he : stepPushImage c t o s = ⟨.cont, s, [], []⟩ := by
    unfold stepPushImage
    rw [h]
    rfl
  exact ⟨he, by rw [he], by rw [he], by rw [he]; rfl⟩

theorem push_skipped_when_disabled_witness :
    stepPushImage { demoConfig with pushToRegistry := false } "" demoOracle
        [("image_name", "img:latest")] =
      ⟨.cont, [("image_name", "img:latest")], [], []⟩ :=
  (push_skipped_when_disabled { demoConfig with pushToRegistry := false } ""
    demoOracle [("image_name", "img:latest")] rfl).1

/-- C8: when the backend's image listing succeeds and contains the configured
base image, the pull step only issues the existence check: it returns
continue, leaves the state untouched and performs zero pull calls — so a
second invocation under the same backend answer again performs zero pull
calls. -/
theorem pull_skips_when_image_exists (c : Config) (o : Oracle)
    (s : BuildState) (h1 : o.imagesCheck.exitOk = true)
    (h2 : strContains o.imagesCheck.output c.baseImage = true) :
    stepPullImage c o s = ⟨.cont, s, [.listImages], []⟩ ∧
    (stepPullImage c o s).calls.countP (fun k => isPullImageCall k) = 0 ∧
    (stepPullImage c o (stepPullImage c o s).state).calls.countP
      (fun k => isPullImageCall k) = 0 := by
  have he : stepPullImage c o s = ⟨.cont, s, [.listImages], []⟩ := by
    unfold stepPullImage
    rw [h1, h2]
    rfl
  refine ⟨he, by rw [he]; rfl, ?_⟩
  rw [he]
  have he2 : stepPullImage c o s = ⟨.cont, s, [.listImages], []⟩ := he
  show (stepPullImage c o s).calls.countP (fun k => isPullImageCall k) = 0
  rw [he2]
  rfl

theorem pull_skips_when_image_exists_witness :
    stepPullImage demoConfig demoOracle [] = ⟨.cont, [], [.listImages], []⟩ :=
  (pull_skips_when_image_exists demoConfig demoOracle [] rfl (by decide)).1

/-- C3: the per-line address test of WaitForReady accepts a trimmed line
exactly when it consists of four dot-separated segments that each satisfy
`strconv.Atoi`; it accepts `"192.168.1.10"` and rejects `""`, `"null"`,
`"some text 1.2.3.4 more"` and `"1.2.3"`; and a poll whose output contains no
accepted line leaves the wait loop polling (not-yet-ready) instead of
failing. -/
theorem ip_validation_characterization :
    (∀ l : List Char, ipLineValid l = specFourSegments l) ∧
    ipLineValid "192.168.1.10".data = true ∧
    ipLineValid "".data = false ∧
    ipLineValid "null".data = false ∧
    ipLineValid "some text 1.2.3.4 more".data = false ∧
    ipLineValid "1.2.3".data = false ∧
    (∀ (polls : Nat → CmdResult) (fuel i : Nat),
      pollIP (polls i) = none →
      (waitLoop polls (fuel + 1) i).1 = (waitLoop polls fuel (i + 1)).1) := by
  refine ⟨ipLineValid_eq_spec, by decide, by decide, by decide, by decide,
    by decide, ?_⟩
  intro polls fuel i h
  simp [waitLoop, h]

theorem ip_validation_characterization_witness :
    (waitLoop (fun _ => ⟨true, "", "null\n"⟩) 1 0).1 =
      (waitLoop (fun _ => ⟨true, "", "null\n"⟩) 0 1).1 :=
  ip_validation_characterization.2.2.2.2.2.2 (fun _ => ⟨true, "", "null\n"⟩)
    0 0 (by decide)

/-! ## The wait loop under a never-ready backend (C2) -/

theorem waitLoop_never_ready (polls : Nat → CmdResult)
    (h : ∀ i, pollIP (polls i) = none) :
    ∀ fuel i, waitLoop polls fuel i = (none, fuel) := by
  intro fuel
  induction fuel with
  | zero => intro i; rfl
  | succ n ih =>
    intro i
    simp [waitLoop, h i, ih (i + 1)]

/-- C2 (amended): when no poll ever yields a valid address, WaitForReady
halts with the timeout error recorded as the build's fatal error; the number
of polls performed before the 5-minute timer is taken is 29 or 30 — the
ticker delivers ticks at 10 s, ..., 290 s, and the 300-second tick becomes
ready together with the timeout, so the Go `select` race decides whether a
30th poll happens. -/
theorem wait_timeout_behavior (c : Config) (o : Oracle) (s : BuildState)
    (h : ∀ i, pollIP (o.polls i) = none) :
    (stepWaitForVM c o s).action = .halt ∧
    stateGet (stepWaitForVM c o s).state "error" =
      some "timeout waiting for VM to be ready" ∧
    ((stepWaitForVM c o s).calls.length = 29 ∨
      (stepWaitForVM c o s).calls.length = 30) ∧
    (o.timeoutFirst = true → (stepWaitForVM c o s).calls.length = 29) ∧
    (o.timeoutFirst = false → (stepWaitForVM c o s).calls.length = 30) := by
  have he : stepWaitForVM c o s =
      ⟨.halt, statePut s "error" "timeout waiting for VM to be ready",
        List.replicate (pollBudget 10 300 o.timeoutFirst)
          (.getIP ((stateGet s "vm_name").getD "")), []⟩ := by
    unfold stepWaitForVM
    simp only [waitLoop_never_ready o.polls h]
  have hb : pollBudget 10 300 o.timeoutFirst = 29 ∨
      pollBudget 10 300 o.timeoutFirst = 30 := by
    cases ht : o.timeoutFirst
    · right; rfl
    · left; rfl
  refine ⟨by rw [he], ?_, ?_, ?_, ?_⟩
  · rw [he]
    exact stateGet_put_same s "error" "timeout waiting for VM to be ready"
  · rw [he]
    simpa using hb
  · intro ht
    rw [he]
    simp [pollBudget, ht]
  · intro ht
    rw [he]
    simp [pollBudget, ht]

def neverReadyPolls : Nat → CmdResult := fun _ => ⟨true, "", "null\n"⟩

def neverReadyOracle : Oracle :=
  { demoOracle with polls := neverReadyPolls, timeoutFirst := true }

theorem wait_timeout_behavior_witness :
    (stepWaitForVM demoConfig neverReadyOracle
      [("vm_name", "packer-web-100")]).action = .halt :=
  (wait_timeout_behavior demoConfig neverReadyOracle
    [("vm_name", "packer-web-100")] (fun _ => rfl)).1

/-- C2 (counterexample to the claimed exact count): when the timeout wins the
race at the 300-second mark, the step halts after 29 polls, not the claimed
30. -/
theorem wait_can_time_out_after_29_polls :
    (stepWaitForVM demoConfig neverReadyOracle
      [("vm_name", "packer-web-100")]).action = .halt ∧
    (stepWaitForVM demoConfig neverReadyOracle
      [("vm_name", "packer-web-100")]).calls.length = 29 ∧
    (29 : Nat) ≠ 30 := by
  decide

/-- C6: for the pull and push operations the fatal decision is exactly
"non-zero exit OR an authorization-denial marker in the captured stderr"
("unauthorized"/"denied" for pull, plus "authentication required" for push),
and the recorded error concatenates the mechanical failure with the trimmed
diagnostic text; create/start/stop decide success from exit status alone
(stop never halts, it only warns). -/
theorem failure_detection_policy :
    (∀ (c : Config) (o : Oracle) (s : BuildState),
      (o.imagesCheck.exitOk && strContains o.imagesCheck.output c.baseImage) =
          false →
      o.pullO.pipesOk = true → o.pullO.startOk = true →
      ((stepPullImage c o s).action = .halt ↔
        (o.pullO.exitErr.isSome = true ∨
          strContains (streamStderr o.pullO.stderrLines) "unauthorized" = true ∨
          strContains (streamStderr o.pullO.stderrLines) "denied" = true))) ∧
    (∀ (c : Config) (o : Oracle) (s : BuildState) (e : String),
      (o.imagesCheck.exitOk && strContains o.imagesCheck.output c.baseImage) =
          false →
      o.pullO.pipesOk = true → o.pullO.startOk = true →
      o.pullO.exitErr = some e →
      streamStderr o.pullO.stderrLines ≠ "" →
      stateGet (stepPullImage c o s).state "error" =
        some ("failed to pull base image '" ++ c.baseImage ++ "'" ++ ": " ++ e ++
          " - " ++ trimString (streamStderr o.pullO.stderrLines))) ∧
    (∀ (c : Config) (t : String) (o : Oracle) (s : BuildState),
      c.pushToRegistry = true →
      (strContains c.registry "ghcr.io" && t == "") = false →
      o.pushO.pipesOk = true → o.pushO.startOk = true →
      ((stepPushImage c t o s).action = .halt ↔
        (o.pushO.exitErr.isSome = true ∨
          strContains (streamStderr o.pushO.stderrLines) "unauthorized" = true ∨
          strContains (streamStderr o.pushO.stderrLines) "denied" = true ∨
          strContains (streamStderr o.pushO.stderrLines) "authentication required" =
            true))) ∧
    (∀ (c : Config) (t : String) (o : Oracle) (s : BuildState) (e : String),
      c.pushToRegistry = true →
      (strContains c.registry "ghcr.io" && t == "") = false →
      o.pushO.pipesOk = true → o.pushO.startOk = true →
      o.pushO.exitErr = some e →
      streamStderr o.pushO.stderrLines ≠ "" →
      stateGet (stepPushImage c t o s).state "error" =
        some ("failed to push image" ++ ": " ++ e ++ " - " ++
          trimString (streamStderr o.pushO.stderrLines))) ∧
    (∀ (c : Config) (o : Oracle) (s : BuildState),
      (stepCreateVM c o s).action = .halt ↔ o.createVMR.exitOk = false) ∧
    (∀ (c : Config) (o : Oracle) (s : BuildState),
      (stepStartVM c o s).action = .halt ↔ o.startVMR.exitOk = false) ∧
    (∀ (c : Config) (o : Oracle) (s : BuildState),
      (stepStopVM c o s).action = .cont ∧
      ((stepStopVM c o s).warnings = [] ↔ o.stopVMR.exitOk = true)) := by
  refine ⟨?_, ?_, ?_, ?_, ?_, ?_, ?_⟩
  · intro c o s h1 h2 h3
    unfold stepPullImage
    rw [h1, h2, h3]
    simp only [Bool.not_true, Bool.false_eq_true, if_false]
    split
    next hcond =>
      simp only [Bool.or_eq_true] at hcond
      constructor
      · intro _
        rcases hcond with (h | h) | h
        · exact Or.inl h
        · exact Or.inr (Or.inl h)
        · exact Or.inr (Or.inr h)
      · intro _; rfl
    next hcond =>
      constructor
      · intro hfalse
        simp at hfalse
      · rintro (h | h | h) <;> simp [h] at hcond
  · intro c o s e h1 h2 h3 he hsc
    unfold stepPullImage
    rw [h1, h2, h3]
    simp only [Bool.not_true, Bool.false_eq_true, if_false]
    rw [he]
    simp only [Option.isSome_some, Bool.true_or, if_true]
    rw [stateGet_put_same]
    unfold pullFailMsg
    rw [if_neg hsc]
  · intro c t o s hp hg h2 h3
    unfold stepPushImage
    rw [hp, hg, h2, h3]
    simp only [Bool.not_true, Bool.false_eq_true, if_false]
    split
    next hcond =>
      simp only [Bool.or_eq_true] at hcond
      constructor
      · intro _
        rcases hcond with ((h | h) | h) | h
        · exact Or.inl h
        · exact Or.inr (Or.inl h)
        · exact Or.inr (Or.inr (Or.inl h))
        · exact Or.inr (Or.inr (Or.inr h))
      · intro _; rfl
    next hcond =>
      constructor
      · intro hfalse
        simp at hfalse
      · rintro (h | h | h | h) <;> simp [h] at hcond
  · intro c t o s e hp hg h2 h3 he hsc
    unfold stepPushImage
    rw [hp, hg, h2, h3]
    simp only [Bool.not_true, Bool.false_eq_true, if_false]
    rw [he]
    simp only [Option.isSome_some, Bool.true_or, if_true]
    rw [stateGet_put_same]
    unfold pushFailMsg
    rw [if_neg hsc]
  · intro c o s
    cases hek : o.createVMR.exitOk <;> simp [stepCreateVM, hek]
  · intro c o s
    cases hek : o.startVMR.exitOk <;> simp [stepStartVM, hek]
  · intro c o s
    cases hek : o.stopVMR.exitOk <;> simp [stepStopVM, hek]

def pullDeniedOracle : Oracle :=
  { demoOracle with
    imagesCheck := ⟨true, "", "other-image:latest\n"⟩,
    pullO := ⟨true, true, "", none, ["Error: denied: permission refused"]⟩ }

theorem failure_detection_policy_witness :
    (stepPullImage demoConfig pullDeniedOracle []).action = .halt :=
  (failure_detection_policy.1 demoConfig pullDeniedOracle [] (by decide) rfl
    rfl).mpr (Or.inr (Or.inr (by decide)))

/-- C7 (counterexample to the claimed summary text): the artifact's summary
begins with "Meda image: ", not the claimed "image: ". -/
theorem artifact_summary_not_bare_image :
    artifactString ⟨"img:latest", ""⟩ = "Meda image: img:latest" ∧
    artifactString ⟨"img:latest", ""⟩ ≠ "image: img:latest" := by
  decide

/-- C7 (amended): the snapshot step records the image name
`output_image_name:output_tag`; a successful push records the coordinate
`registry[/organization]/output_image_name:output_tag`, the organization
segment present exactly when non-empty; and the artifact's summary is
"Meda image: NAME", with " (pushed to TARGET)" appended when a push
coordinate exists. -/
theorem artifact_naming (c : Config) (t : String) (o : Oracle)
    (s : BuildState) :
    (o.createImageR.exitOk = true →
      stateGet (stepCreateImage c o s).state "image_name" =
        some (c.outputImageName ++ ":" ++ c.outputTag)) ∧
    (c.pushToRegistry = true →
      (strContains c.registry "ghcr.io" && t == "") = false →
      o.pushO.pipesOk = true → o.pushO.startOk = true →
      (stepPushImage c t o s).action = .cont →
      stateGet (stepPushImage c t o s).state "pushed_image" =
        some (targetImageName c)) ∧
    (c.organization = "" →
      targetImageName c =
        c.registry ++ "/" ++ c.outputImageName ++ ":" ++ c.outputTag) ∧
    (c.organization ≠ "" →
      targetImageName c =
        c.registry ++ "/" ++ c.organization ++ "/" ++ c.outputImageName ++
          ":" ++ c.outputTag) ∧
    (∀ a : Artifact, a.pushedImage = "" →
      artifactString a = "Meda image: " ++ a.imageName) ∧
    (∀ a : Artifact, a.pushedImage ≠ "" →
      artifactString a =
        "Meda image: " ++ a.imageName ++ " (pushed to " ++ a.pushedImage ++ ")") := by
  refine ⟨?_, ?_, ?_, ?_, ?_, ?_⟩
  · intro hok
    unfold stepCreateImage
    rw [hok]
    exact stateGet_put_same _ _ _
  · intro hp hg h2 h3 haction
    cases hcond : (o.pushO.exitErr.isSome ||
        strContains (streamStderr o.pushO.stderrLines) "unauthorized" ||
        strContains (streamStderr o.pushO.stderrLines) "denied" ||
        strContains (streamStderr o.pushO.stderrLines) "authentication required")
    · have he : stepPushImage c t o s =
          ⟨.cont, statePut s "pushed_image" (targetImageName c),
            [.pushImage (pushArgs c (targetImageName c))], []⟩ := by
        unfold stepPushImage
        rw [hp, hg, h2, h3]
        simp only [Bool.not_true, Bool.false_eq_true, if_false]
        rw [hcond]
        rfl
      rw [he]
      exact stateGet_put_same _ _ _
    · exfalso
      have he : (stepPushImage c t o s).action = .halt := by
        unfold stepPushImage
        rw [hp, hg, h2, h3]
        simp only [Bool.not_true, Bool.false_eq_true, if_false]
        rw [hcond]
        rfl
      rw [haction] at he
      exact absurd he (by decide)
  · intro horg
    unfold targetImageName
    rw [if_neg (by simp [horg])]
  · intro horg
    unfold targetImageName
    rw [if_pos horg]
  · intro a ha
    unfold artifactString
    rw [if_neg (by simp [ha])]
  · intro a ha
    unfold artifactString
    rw [if_pos ha]

theorem artifact_naming_witness :
    targetImageName demoConfig = "ghcr.io" ++ "/" ++ "img" ++ ":" ++ "latest" :=
  (artifact_naming demoConfig "" demoOracle []).2.2.1 rfl

/-! ## Decimal rendering of the timestamp (C9) -/

theorem digitChar_toNat_lt10 : ∀ n < 10, (Nat.digitChar n).toNat = n + 48 := by
  decide

theorem digitsVal_append_one (l : List Char) (c : Char) :
    digitsVal (l ++ [c]) = 10 * digitsVal l + (c.toNat - 48) := by
  simp [digitsVal, List.foldl_append]

theorem digitsVal_decReprAux :
    ∀ fuel n : Nat, n < fuel → digitsVal (decReprAux fuel n) = n := by
  intro fuel
  induction fuel with
  | zero => intro n h; exact absurd h (Nat.not_lt_zero n)
  | succ f ih =>
    intro n h
    by_cases h10 : n < 10
    · simp only [decReprAux, if_pos h10]
      have hc := digitChar_toNat_lt10 n h10
      simp [digitsVal, hc]
    · simp only [decReprAux, if_neg h10]
      rw [digitsVal_append_one]
      have hlt : n / 10 < f := by
        have hn : n / 10 < n := Nat.div_lt_self (by omega) (by omega)
        omega
      rw [ih (n / 10) hlt]
      have hm : (Nat.digitChar (n % 10)).toNat = n % 10 + 48 :=
        digitChar_toNat_lt10 (n % 10) (Nat.mod_lt n (by omega))
      rw [hm]
      omega

/-- `decRepr` really is the decimal rendering: reading its digits back as a
base-10 numeral recovers the number. -/
theorem digitsVal_decRepr (n : Nat) : digitsVal (decRepr n) = n :=
  digitsVal_decReprAux (n + 1) n (Nat.lt_succ_self n)

theorem decRepr_inj {a b : Nat} (h : decRepr a = decRepr b) : a = b := by
  have h2 := congrArg digitsVal h
  rwa [digitsVal_decRepr, digitsVal_decRepr] at h2

theorem data_mk (l : List Char) : (String.mk l).data = l := rfl

/-- C9 (amended): the VM identifier has exactly the form
`packer-{vm_name}-{unix_seconds}` with the seconds rendered in decimal, and
two builds of the same configured name receive distinct identifiers exactly
when their creation timestamps (unix seconds) differ — the timestamp is the
only distinguishing component. -/
theorem vm_name_form_and_distinctness :
    (∀ (c : Config) (t : Nat),
      vmNameOf c t = "packer-" ++ c.vmName ++ "-" ++ decReprS t) ∧
    (∀ n : Nat, digitsVal (decRepr n) = n) ∧
    (∀ (c : Config) (t1 t2 : Nat), t1 ≠ t2 →
      vmNameOf c t1 ≠ vmNameOf c t2) := by
  refine ⟨fun c t => rfl, digitsVal_decRepr, ?_⟩
  intro c t1 t2 hne heq
  apply hne
  unfold vmNameOf decReprS at heq
  have hd := congrArg String.data heq
  simp only [String.data_append, data_mk] at hd
  exact decRepr_inj (List.append_right_injective _ hd)

def c9SameSecond : Nat → Nat := fun _ => 1700000000

/-- C9 (counterexample to collision-freedom): two distinct concurrent builds
of the same configured name that start within the same unix second are mapped
to the same VM identifier. -/
theorem vm_name_collision_same_second :
    (0 : Nat) ≠ 1 ∧
    vmNameOf demoConfig (c9SameSecond 0) = vmNameOf demoConfig (c9SameSecond 1) ∧
    vmNameOf demoConfig (c9SameSecond 0) = "packer-web-1700000000" := by
  decide

theorem vm_name_form_and_distinctness_witness :
    vmNameOf demoConfig 100 ≠ vmNameOf demoConfig 101 :=
  vm_name_form_and_distinctness.2.2 demoConfig 100 101 (by decide)

/-! ## The cleanup step is skipped on a halted build (C1) -/

/-- The oracle of the C1 scenario: the base image is already present,
create/start succeed, the first poll returns a valid address, the external
provision steps succeed, stop and snapshot succeed — and the build then halts
at the push step's GHCR-credential precondition. -/
def haltScenarioOracle : Oracle := demoOracle

/-- C1 (the code violates it): with pushing enabled to `ghcr.io` and
`GITHUB_TOKEN` unset, after pull-check/create/start/wait/provision/stop/
snapshot all succeed, the build halts at PublishImage with the precondition
error — and the VM-delete operation is issued zero times, not once:
`stepCleanupVM` is the last forward step, `multistep` skips the remaining
`Run` methods after a halt, and every step's `Cleanup` hook (the one phase
that does run) has an empty body.  The run's calls are exactly the existence
check, one create, one start, one poll, one stop and one snapshot. -/
theorem cleanup_delete_skipped_on_ghcr_halt :
    (builderRun demoConfig "" haltScenarioOracle 100).1 = .error ghcrTokenMsg ∧
    (builderRun demoConfig "" haltScenarioOracle 100).2.countP
      (fun k => isDeleteVMCall k) = 0 ∧
    (builderRun demoConfig "" haltScenarioOracle 100).2.countP
      (fun k => isCreateVMCall k) = 1 ∧
    (builderRun demoConfig "" haltScenarioOracle 100).2.countP
      (fun k => isStartVMCall k) = 1 ∧
    (builderRun demoConfig "" haltScenarioOracle 100).2.countP
      (fun k => isCreateImageCall k) = 1 ∧
    (builderRun demoConfig "" haltScenarioOracle 100).2.countP
      (fun k => isPushImageCall k) = 0 ∧
    (builderRun demoConfig "token" haltScenarioOracle 100).2.countP
      (fun k => isDeleteVMCall k) = 1 :=
  ⟨rfl, by decide⟩

end Meda
